import Mathlib

/-!
Shallow embedding of src/Python/seafreeze/seafreeze.py.

The numeric type is a parameter `α` (a linear ordered field); witnesses run
at `α := ℚ` and statements about the logarithmic temperature conversion are
made at `α := ℝ`.  The value `none : Option α` models the floating-point NaN
used by the code as a missing-value sentinel.  The external collaborators
(the spline loader `mlbspline.load.loadSpline` and the Gibbs evaluator
`lbftd.evalGibbs`) are out of scope per the spec and are modelled as opaque
fields of an `Env` record: the loaded spline attributes (`ndT`, `Tc`, knot
bounds) and the per-point evaluator outputs (`G`, `muw`, `rho`, `Ks`).
-/

namespace SeaFreeze

variable {α : Type} [LinearOrderedField α]

/-- A single evaluation point: pressure `P` [MPa], temperature `T` [K] and an
optional molality `m` [mol/kg].  Scatter inputs are lists of such points; a
grid input is flattened to the cross product of its axes. -/
structure Cell (α : Type) where
  P : α
  T : α
  m : Option α
deriving DecidableEq

/-- Attributes of a loaded spline used by seafreeze.py: the dimensionless
temperature flag `ndT`, the reference temperature `Tc`, and the min/max of
the knot sequences along the P and T axes
(`sp[knots][iP].min()` etc. in the code). -/
structure SplineData (α : Type) where
  ndT : Bool
  Tc : α
  kPmin : α
  kPmax : α
  kTmin : α
  kTmax : α
deriving DecidableEq

/-- The external world: spline attributes per spline name, and the per-point
outputs of the lbftd Gibbs evaluator (which receives the spline name, the
molar mass `MWu` and the coordinates, exactly the data the code forwards).
`conv` models the elementwise `np.log(T / Tc)` conversion and `sqrt` models
`np.sqrt`. -/
structure Env (α : Type) where
  sp : String → SplineData α
  evalG : String → α → α → α → α
  evalMuw : String → α → α → α → Option α → α
  evalRho : String → α → α → α → α
  evalKs : String → α → α → α → α
  conv : α → α → α
  sqrt : α → α

/-- Python `x > y` on numbers where `None` stands for `np.nan`: any
comparison against nan is `False`. -/
def pyGt : Option ℤ → Option ℤ → Bool
  | some a, some b => a > b
  | _, _ => false

/-- Python `max` over a list: keep the first element, replace it whenever a
later element compares strictly greater (nan comparisons are `False`). -/
def pyMaxList : List (Option ℤ) → Option ℤ
  | [] => none
  | x :: xs => xs.foldl (fun b y => if pyGt y b then y else b) x

/-- Helper for the Python substring test: Boolean list check that `needle`
starts `hay`. -/
def listStartsWith [DecidableEq β] : List β → List β → Bool
  | [], _ => true
  | _ :: _, [] => false
  | a :: as, b :: bs => a = b && listStartsWith as bs

/-- Boolean check that `needle` occurs contiguously inside `hay`. -/
def listInfixOf [DecidableEq β] (needle : List β) : List β → Bool
  | [] => listStartsWith needle []
  | hay@(_ :: rest) => listStartsWith needle hay || listInfixOf needle rest

/-- Python `needle in hay` on strings (substring containment). -/
def pyIn (needle hay : String) : Bool :=
  listInfixOf needle.toList hay.toList

/-- namedtuple PhaseDesc: sp_name shear_mod_parms phase_num MW.
`phase_num = none` models the `np.nan` sentinel. -/
structure PhaseDesc (α : Type) where
  sp_name : String
  shear_mod_parms : Option (List α)
  phase_num : Option ℤ
  MW : α
deriving DecidableEq

/-- mH2O_kgmol = 18.01528e-3 -/
def mH2O_kgmol : α := 18.01528e-3

/-- The phases registry, in dict insertion order (seafreeze.py lines
226-239). -/
def phases : List (String × PhaseDesc α) :=
  [("Ih", ⟨"G_iceIh", some [3.04, -0.00462, 0, -0.00607, 1000, 273.15], some 1, mH2O_kgmol⟩),
   ("II", ⟨"G_iceII", some [4.1, 0.0175, 0, -0.014, 1100, 273], some 2, mH2O_kgmol⟩),
   ("III", ⟨"G_iceIII", some [2.57, 0.0175, 0, -0.014, 1100, 273], some 3, mH2O_kgmol⟩),
   ("V", ⟨"G_iceV", some [2.57, 0.0175, 0, -0.014, 1100, 273], some 5, mH2O_kgmol⟩),
   ("VI", ⟨"G_iceVI", some [2.57, 0.0175, 0, -0.014, 1100, 273], some 6, mH2O_kgmol⟩),
   ("water1", ⟨"G_H2O_2GPa_500K", none, some 0, mH2O_kgmol⟩),
   ("water2", ⟨"G_H2O_100GPa_10000K", none, none, mH2O_kgmol⟩),
   ("water_IAPWS95", ⟨"G_H2O_IAPWS", none, none, mH2O_kgmol⟩),
   ("NH3", ⟨"LBF_NH3_H2O_SSdev_v1", none, some 0, 17.031e-3⟩),
   ("NaCl", ⟨"NaCl_LBF_8000MPa", none, some 0, 58.44e-3⟩)]

/-- Python dict lookup `phases[name]`, `none` models a KeyError. -/
def phasesLookup (name : String) : Option (PhaseDesc α) :=
  ((phases (α := α)).find? (fun kv => kv.1 = name)).map (fun kv => kv.2)

/-- max_phase_num = max([p.phase_num for p in phases.values()]), with the
Python nan-comparison semantics of `max`. -/
def max_phase_num : Option ℤ :=
  pyMaxList ((phases (α := ℚ)).map (fun kv => kv.2.phase_num))

/-- Number of slots of the comparison buffer along its innermost axis:
`max_phase_num + 1` (seafreeze.py line 133). -/
def numSlots : ℕ :=
  match max_phase_num with
  | some n => (n + 1).toNat
  | none => 0

/-- phasenum2phase = {v.phase_num: k for (k, v) in phases.items()}: a later
entry with the same key overwrites an earlier one, so lookup returns the
last registry phase carrying the requested code (np.nan is a single object,
hence a single dict key, modelled by `none`). -/
def phasenum2phase (n : Option ℤ) : Option String :=
  (((phases (α := ℚ)).filter (fun kv => kv.2.phase_num = n)).getLast?).map (fun kv => kv.1)

/-- The dict comprehension of seafreeze.py line 130: phase code and spline
name of every registry phase with `v.phase_num > 0 or pcomp == solute`, in
registry order. -/
def phase_sp (solute : String) : List (Option ℤ × String) :=
  ((phases (α := ℚ)).filter
      (fun kv => pyGt kv.2.phase_num (some 0) || kv.1 = solute)).map
    (fun kv => (kv.2.phase_num, kv.2.sp_name))

/-- Names of the registry phases whose splines whichphase loads (line 130). -/
def loadedPhases (solute : String) : List String :=
  ((phases (α := ℚ)).filter
      (fun kv => pyGt kv.2.phase_num (some 0) || kv.1 = solute)).map (fun kv => kv.1)

/-- The in-place dimensionless-temperature conversion (seafreeze.py lines
135-140): when the spline of `spname` has `ndT`, every temperature of the
shared coordinate buffer is overwritten with `conv Tc T`
(`np.log(T / Tc)` in the code); otherwise the buffer is left unchanged. -/
def convertCells (env : Env α) (spname : String) (cells : List (Cell α)) : List (Cell α) :=
  let s := env.sp spname
  if s.ndT then cells.map (fun c => { c with T := env.conv s.Tc c.T }) else cells

/-- comp[sl] = values: write one value per cell into slot `p` of each row of
the comparison buffer. -/
def writeSlot (comp : List (List (Option α))) (p : ℕ) (vals : List (Option α)) :
    List (List (Option α)) :=
  comp.zipWith (fun row v => row.set p v) vals

/-- np.nanargmin along the innermost axis, combined with the all-nan guard
of seafreeze.py lines 164-167: `none` when every entry is missing, otherwise
the first index holding the minimal non-missing value. -/
def nanargmin (xs : List (Option α)) : Option ℕ :=
  match (xs.filterMap id).min? with
  | none => none
  | some m => some (xs.findIdx (fun x => x = some m))

/-- State threaded through the per-phase loop of whichphase: the shared
coordinate buffer (mutated in place by the ndT conversion) and the
comparison buffer. -/
structure LoopState (α : Type) where
  cells : List (Cell α)
  comp : List (List (Option α))
deriving DecidableEq

/-- The molar mass attached to the spline before evaluation
(seafreeze.py lines 146 and 152): the MW of `phases[solute]` for slot 0 and
the MW of `phases[phasenum2phase[p]]` for the other slots.  `none` models a
KeyError on the dict lookup. -/
def mwFor (solute : String) (pn : ℤ) : Option α :=
  if pn = 0 then (phasesLookup (α := α) solute).map (fun d => d.MW)
  else ((phasenum2phase (some pn)).bind (phasesLookup (α := α))).map (fun d => d.MW)

/-- The comparable scalar written into slot `pn` for one cell (seafreeze.py
lines 145-162): for slot 0 either `G * MW` when the solute name contains
"water" or the raw muw evaluator output, for other slots `G * MW`; masked to
`none` when the current P or T of the cell lies strictly outside the knot
bounds of the spline. -/
def slotVal (env : Env α) (solute : String) (pn : ℤ) (spname : String) (mw : α) (c : Cell α) :
    Option α :=
  let spd := env.sp spname
  let v : α :=
    if pn = 0 then
      if pyIn "water" solute then env.evalG spname mw c.P c.T * mw
      else env.evalMuw spname mw c.P c.T c.m
    else env.evalG spname mw c.P c.T * mw
  if c.P < spd.kPmin ∨ c.P > spd.kPmax ∨ c.T < spd.kTmin ∨ c.T > spd.kTmax then none
  else some v

/-- One iteration of the loop of seafreeze.py lines 134-163 for the
candidate with phase code `cand.1` and spline name `cand.2`: convert the
temperature buffer in place if the spline uses dimensionless temperature;
compute the comparable scalar per cell and write the masked column into the
comparison buffer.  `none` models an uncaught exception: indexing
`comp[..., np.nan]` (an IndexError, when the phase code is the nan
sentinel or out of the slot range) or a failed registry lookup. -/
def phaseStep (env : Env α) (solute : String) (st : LoopState α) (cand : Option ℤ × String) :
    Option (LoopState α) :=
  let cells := convertCells env cand.2 st.cells
  match cand.1 with
  | none => none
  | some pn =>
    if 0 ≤ pn ∧ pn.toNat < numSlots then
      (mwFor solute pn).map (fun mw =>
        { cells := cells,
          comp := writeSlot st.comp pn.toNat (cells.map (slotVal env solute pn cand.2 mw)) })
    else none

/-- Initial loop state: the input cells and the comparison buffer
`np.full(ptsh + (max_phase_num + 1,), np.nan)`. -/
def initState (cells : List (Cell α)) : LoopState α :=
  { cells := cells, comp := List.replicate cells.length (List.replicate numSlots none) }

/-- The whole per-phase loop of whichphase (lines 130-163). -/
def whichphaseState (env : Env α) (solute : String) (cells : List (Cell α)) :
    Option (LoopState α) :=
  (phase_sp solute).foldlM (phaseStep env solute) (initState cells)

/-- The filled comparison buffer of whichphase, one row per cell, one slot
per phase code. -/
def whichphaseComp (env : Env α) (solute : String) (cells : List (Cell α)) :
    Option (List (List (Option α))) :=
  (whichphaseState env solute cells).map (fun st => st.comp)

/-- whichphase: per-phase comparison loop followed by the masked arg-min
reduction of lines 164-168.  Each output entry is the winning phase code or
`none` (the NaN written for all-missing rows). -/
def whichphase (env : Env α) (solute : String) (cells : List (Cell α)) :
    Option (List (Option ℕ)) :=
  (whichphaseState env solute cells).map (fun st => st.comp.map nanargmin)

/-- Cross product of grid axes (row-major, pressure rows then temperature
columns), the order in which the flattened comparison buffer of a grid
input stores its cells.  Grid cells carry no molality. -/
def gridCells (Ps Ts : List α) : List (Cell α) :=
  (Ps.map (fun P => Ts.map (fun T => (⟨P, T, none⟩ : Cell α)))).flatten

/-- whichphase on a two-axis grid input. -/
def whichphaseGrid (env : Env α) (solute : String) (Ps Ts : List α) :
    Option (List (Option ℕ)) :=
  whichphase env solute (gridCells Ps Ts)

/-! Shared lemmas about the reduction and the loop. -/

theorem nanargmin_eq_none_iff (xs : List (Option α)) :
    nanargmin xs = none ↔ ∀ x ∈ xs, x = none := by
  unfold nanargmin
  cases h : (xs.filterMap id).min? with
  | none =>
    rw [List.min?_eq_none_iff, List.filterMap_eq_nil_iff] at h
    simpa using h
  | some m =>
    have hm : m ∈ xs.filterMap id := List.min?_mem (fun a b => min_choice a b) h
    have hsm : some m ∈ xs := by
      rcases List.mem_filterMap.mp hm with ⟨a, ha, hid⟩
      cases a with
      | none => cases hid
      | some a => cases hid; exact ha
    constructor
    · intro hc; cases hc
    · intro hall
      exact absurd (hall _ hsm) (by simp)

theorem nanargmin_spec {xs : List (Option α)} {k : ℕ} (h : nanargmin xs = some k) :
    ∃ v, xs[k]? = some (some v) ∧ ∀ (j : ℕ) (w : α), xs[j]? = some (some w) → v ≤ w := by
  unfold nanargmin at h
  cases hmin : (xs.filterMap id).min? with
  | none => rw [hmin] at h; cases h
  | some m =>
    rw [hmin] at h
    injection h with hk
    have hm : m ∈ xs.filterMap id := List.min?_mem (fun a b => min_choice a b) hmin
    have hsm : some m ∈ xs := by
      rcases List.mem_filterMap.mp hm with ⟨a, ha, hid⟩
      cases a with
      | none => cases hid
      | some a => cases hid; exact ha
    have hex : ∃ x ∈ xs, (fun x => decide (x = some m)) x := ⟨some m, hsm, by simp⟩
    have hlt := List.findIdx_lt_length_of_exists hex
    refine ⟨m, ?_, ?_⟩
    · have hget := List.findIdx_getElem (p := fun x => decide (x = some m)) (w := hlt)
      have hval : xs[xs.findIdx (fun x => decide (x = some m))] = some m := by
        simpa using hget
      rw [← hk, List.getElem?_eq_getElem hlt, hval]
    · intro j w hj
      have hwx : some w ∈ xs := List.getElem?_mem hj
      have hwmem : w ∈ xs.filterMap id := List.mem_filterMap.mpr ⟨some w, hwx, rfl⟩
      exact (List.le_min?_iff (fun a b c => le_min_iff) hmin).mp (le_refl m) w hwmem

theorem nanargmin_slot_not_none {xs : List (Option α)} {k : ℕ} (h : nanargmin xs = some k) :
    xs[k]? ≠ some none := by
  obtain ⟨v, hv, _⟩ := nanargmin_spec h
  rw [hv]
  simp

/-- Invariant preservation through `List.foldlM` in the Option monad. -/
theorem foldlM_option_inv {σ β : Type} {f : σ → β → Option σ} {P : σ → Prop} {Q : β → Prop}
    (hstep : ∀ s b s', Q b → P s → f s b = some s' → P s') :
    ∀ (l : List β) (s s' : σ), (∀ b ∈ l, Q b) → P s → l.foldlM f s = some s' → P s'
  | [], s, s', _, hP, h => by
    simp only [List.foldlM_nil, pure] at h
    cases h
    exact hP
  | b :: l, s, s', hQ, hP, h => by
    rw [List.foldlM_cons] at h
    cases hf : f s b with
    | none => rw [hf] at h; cases h
    | some s1 =>
      rw [hf] at h
      simp only [Option.bind_eq_bind, Option.some_bind] at h
      exact foldlM_option_inv hstep l s1 s'
        (fun x hx => hQ x (List.mem_cons_of_mem _ hx))
        (hstep s b s1 (hQ b (List.mem_cons_self _ _)) hP hf) h

/-- Shape invariant of the loop state: the coordinate buffer keeps its
length and every row of the comparison buffer has `numSlots` slots. -/
def stInv (n : ℕ) (st : LoopState α) : Prop :=
  st.cells.length = n ∧ st.comp.length = n ∧
    ∀ (i : ℕ) (row : List (Option α)), st.comp[i]? = some row → row.length = numSlots

theorem convertCells_length (env : Env α) (spname : String) (cells : List (Cell α)) :
    (convertCells env spname cells).length = cells.length := by
  by_cases h : (env.sp spname).ndT <;> simp [convertCells, h]

theorem writeSlot_getElem?_eq_some {comp : List (List (Option α))} {p : ℕ}
    {vals : List (Option α)} {i : ℕ} {row' : List (Option α)} :
    (writeSlot comp p vals)[i]? = some row' ↔
      ∃ row v, comp[i]? = some row ∧ vals[i]? = some v ∧ row.set p v = row' := by
  unfold writeSlot
  exact List.getElem?_zipWith_eq_some

theorem writeSlot_length {comp : List (List (Option α))} {p : ℕ} {vals : List (Option α)} :
    (writeSlot comp p vals).length = min comp.length vals.length := by
  unfold writeSlot
  simp

theorem phaseStep_stInv {env : Env α} {solute : String} {n : ℕ} {st st' : LoopState α}
    {cand : Option ℤ × String} (hP : stInv n st) (h : phaseStep env solute st cand = some st') :
    stInv n st' := by
  obtain ⟨hc, hl, hrows⟩ := hP
  obtain ⟨pnum, spname⟩ := cand
  cases pnum with
  | none => simp [phaseStep] at h
  | some pn =>
    simp only [phaseStep] at h
    by_cases hg : 0 ≤ pn ∧ pn.toNat < numSlots
    · rw [if_pos hg] at h
      cases hmw : mwFor (α := α) solute pn with
      | none => rw [hmw] at h; cases h
      | some mw =>
        rw [hmw, Option.map_some'] at h
        cases h
        refine ⟨by simpa [convertCells_length] using hc, ?_, ?_⟩
        · rw [writeSlot_length, hl, List.length_map, convertCells_length, hc]
          simp
        · intro i row hrow
          obtain ⟨row0, v, h1, _, rfl⟩ := writeSlot_getElem?_eq_some.mp hrow
          rw [List.length_set]
          exact hrows i row0 h1
    · rw [if_neg hg] at h; cases h

theorem whichphaseState_stInv {env : Env α} {solute : String} {cells : List (Cell α)}
    {st : LoopState α} (h : whichphaseState env solute cells = some st) :
    stInv cells.length st := by
  refine foldlM_option_inv (Q := fun _ => True)
    (fun s b s' _ hP hf => phaseStep_stInv hP hf) _ _ _ (fun _ _ => trivial) ?_ h
  refine ⟨rfl, by simp [initState], ?_⟩
  intro i row hrow
  simp only [initState] at hrow
  rw [List.getElem?_replicate] at hrow
  split at hrow
  · cases hrow; simp
  · cases hrow

/-- Every candidate phase code whichphase can iterate over, for any solute:
the codes present in the registry. -/
theorem phase_sp_key_mem {solute : String} {cand : Option ℤ × String}
    (h : cand ∈ phase_sp solute) :
    cand.1 ∈ ([some 1, some 2, some 3, some 5, some 6, some 0, none] : List (Option ℤ)) := by
  simp only [phase_sp, List.mem_map, List.mem_filter] at h
  rcases h with ⟨kv, ⟨hkv, _⟩, rfl⟩
  simp only [phases, List.mem_cons, List.not_mem_nil, or_false] at hkv
  rcases hkv with rfl|rfl|rfl|rfl|rfl|rfl|rfl|rfl|rfl|rfl <;> simp

/-- Slot 4 of every comparison-buffer row stays at the missing sentinel
throughout the loop: no registry phase carries code 4. -/
theorem whichphaseState_slot4 {env : Env α} {solute : String} {cells : List (Cell α)}
    {st : LoopState α} (h : whichphaseState env solute cells = some st) :
    ∀ (i : ℕ) (row : List (Option α)), st.comp[i]? = some row → row[4]? = some none := by
  refine foldlM_option_inv
    (Q := fun cand : Option ℤ × String => ∀ pn : ℤ, cand.1 = some pn → pn.toNat ≠ 4)
    (f := phaseStep env solute)
    (P := fun st : LoopState α =>
      ∀ (i : ℕ) (row : List (Option α)), st.comp[i]? = some row → row[4]? = some none)
    ?_ _ _ _ ?_ ?_ h
  · intro s cand s' hQ hP hf
    obtain ⟨pnum, spname⟩ := cand
    cases pnum with
    | none => simp [phaseStep] at hf
    | some pn =>
      simp only [phaseStep] at hf
      by_cases hg : 0 ≤ pn ∧ pn.toNat < numSlots
      · rw [if_pos hg] at hf
        cases hmw : mwFor (α := α) solute pn with
        | none => rw [hmw] at hf; cases hf
        | some mw =>
          rw [hmw, Option.map_some'] at hf
          cases hf
          intro i row hrow
          obtain ⟨row0, v, h1, _, rfl⟩ := writeSlot_getElem?_eq_some.mp hrow
          rw [List.getElem?_set_ne (hQ pn rfl)]
          exact hP i row0 h1
      · rw [if_neg hg] at hf; cases hf
  · intro cand hc pn hpn
    have hmem := phase_sp_key_mem hc
    rw [hpn] at hmem
    simp only [List.mem_cons, List.not_mem_nil, or_false, Option.some.injEq,
      reduceCtorEq] at hmem
    rcases hmem with rfl|rfl|rfl|rfl|rfl|rfl <;> decide
  · intro i row hrow
    simp only [initState] at hrow
    rw [List.getElem?_replicate] at hrow
    split at hrow
    · cases hrow
      rw [List.getElem?_replicate, if_pos (by decide : (4 : ℕ) < numSlots)]
    · cases hrow

/-- A concrete environment over ℚ used to instantiate theorems on sample
inputs: constant evaluator outputs and wide-open knot bounds. -/
def testSp : SplineData ℚ :=
  ⟨false, 1, -1000000, 1000000, -1000000, 1000000⟩

/-- Concrete test environment with constant evaluator outputs `gv` (Gibbs)
and `muwv` (chemical potential of water). -/
def testEnv (gv muwv : ℚ) : Env ℚ :=
  { sp := fun _ => testSp, evalG := fun _ _ _ _ => gv, evalMuw := fun _ _ _ _ _ => muwv,
    evalRho := fun _ _ _ _ => 2, evalKs := fun _ _ _ _ => 3,
    conv := fun _ t => t, sqrt := fun _ => 0 }

/-- C10: whichphase never outputs phase code 4: no registry phase carries
code 4, so the slot 4 of the comparison buffer (which allocates
max_phase_num + 1 = 7 slots) remains at the missing sentinel for every
point and the arg-min never selects it. -/
theorem whichphase_never_code4 {env : Env α} {solute : String} {cells : List (Cell α)}
    {out : List (Option ℕ)} (hout : whichphase env solute cells = some out) (i : ℕ) :
    out[i]? ≠ some (some 4) := by
  intro hcontra
  obtain ⟨st, hst, rfl⟩ := Option.map_eq_some'.mp hout
  rw [List.getElem?_map] at hcontra
  obtain ⟨row, hrow, hnan⟩ := Option.map_eq_some'.mp hcontra
  exact nanargmin_slot_not_none hnan (whichphaseState_slot4 hst i row hrow)

/-- Witness for C10 at a concrete input: the output phase code at the
sample point is not 4. -/
theorem whichphase_never_code4_witness :
    (([some 0] : List (Option ℕ))[0]? ≠ some (some 4)) :=
  @whichphase_never_code4 ℚ _ (testEnv 1 1) "water1" [⟨0, 0, none⟩] [some 0] (by
      norm_num +decide [whichphase, whichphaseState, phase_sp, phases, phaseStep, mwFor, slotVal,
        convertCells, writeSlot, initState, numSlots, max_phase_num, pyMaxList, pyGt,
        phasesLookup, phasenum2phase, pyIn, listInfixOf, listStartsWith, nanargmin,
        testEnv, testSp, mH2O_kgmol, List.foldlM_cons, List.foldlM_nil, min_def,
        List.min?_cons, List.findIdx_cons, List.filter, List.find?, List.replicate,
        Int.toNat, List.set, List.filterMap, List.min?, List.foldl, le_refl]) 0

/-- C1: for every run of whichphase and every point, the output is the
missing sentinel exactly when every slot of the comparison-buffer row at
that point is missing, and any selected phase code indexes a non-missing
value that is minimal among the non-missing entries of the row (so a code
is never emitted arbitrarily). -/
theorem whichphase_reduce {env : Env α} {solute : String} {cells : List (Cell α)}
    {out : List (Option ℕ)} {cmp : List (List (Option α))}
    (hout : whichphase env solute cells = some out)
    (hcmp : whichphaseComp env solute cells = some cmp)
    (i : ℕ) (row : List (Option α)) (hrow : cmp[i]? = some row) :
    (out[i]? = some none ↔ ∀ x ∈ row, x = none) ∧
    (∀ k : ℕ, out[i]? = some (some k) →
      ∃ v, row[k]? = some (some v) ∧ ∀ (j : ℕ) (w : α), row[j]? = some (some w) → v ≤ w) := by
  obtain ⟨st, hst, rfl⟩ := Option.map_eq_some'.mp hout
  obtain ⟨st2, hst2, rfl⟩ := Option.map_eq_some'.mp hcmp
  obtain rfl : st2 = st := by
    rw [hst] at hst2
    exact (Option.some_inj.mp hst2).symm
  have hget : (st2.comp.map nanargmin)[i]? = some (nanargmin row) := by
    rw [List.getElem?_map, hrow, Option.map_some']
  constructor
  · rw [hget, Option.some_inj]
    exact nanargmin_eq_none_iff row
  · intro k hk
    rw [hget, Option.some_inj] at hk
    exact nanargmin_spec hk

/-- Comparison-buffer row computed by the whichphase_reduce witness
instance. -/
def rowC1 : List (Option ℚ) :=
  [some mH2O_kgmol, some mH2O_kgmol, some mH2O_kgmol, some mH2O_kgmol, none,
   some mH2O_kgmol, some mH2O_kgmol]

/-- Witness for whichphase_reduce at a concrete input. -/
theorem whichphase_reduce_witness :
    (([some 0] : List (Option ℕ))[0]? = some none ↔ ∀ x ∈ rowC1, x = none) ∧
    (∀ k : ℕ, ([some 0] : List (Option ℕ))[0]? = some (some k) →
      ∃ v, rowC1[k]? = some (some v) ∧
        ∀ (j : ℕ) (w : ℚ), rowC1[j]? = some (some w) → v ≤ w) :=
  @whichphase_reduce ℚ _ (testEnv 1 1) "water1" [⟨0, 0, none⟩] [some 0] [rowC1]
    (by
      norm_num +decide [whichphase, whichphaseState, phase_sp, phases, phaseStep, mwFor, slotVal,
        convertCells, writeSlot, initState, numSlots, max_phase_num, pyMaxList, pyGt,
        phasesLookup, phasenum2phase, pyIn, listInfixOf, listStartsWith, nanargmin,
        testEnv, testSp, mH2O_kgmol, List.foldlM_cons, List.foldlM_nil, min_def,
        List.min?_cons, List.findIdx_cons, List.filter, List.find?, List.replicate,
        Int.toNat, List.set, List.filterMap, List.min?, List.foldl, le_refl])
    (by
      norm_num +decide [whichphaseComp, whichphaseState, phase_sp, phases, phaseStep, mwFor,
        slotVal, convertCells, writeSlot, initState, numSlots, max_phase_num, pyMaxList, pyGt,
        phasesLookup, phasenum2phase, pyIn, listInfixOf, listStartsWith, rowC1,
        testEnv, testSp, mH2O_kgmol, List.foldlM_cons, List.foldlM_nil,
        List.filter, List.find?, List.replicate, Int.toNat, List.set])
    0 rowC1 rfl

/-- C2: during the whichphase loop iteration for a candidate phase, every
cell whose current P or T lies strictly outside that phase knot bounds gets
the missing sentinel written into its slot of the comparison buffer, and
the arg-min reduction never selects an index whose slot is missing, so such
a point never wins the arg-min for that phase. -/
theorem whichphase_mask {env : Env α} {solute : String} {st st' : LoopState α}
    {pn : ℤ} {spname : String}
    (hstep : phaseStep env solute st (some pn, spname) = some st')
    (hlen : st.comp.length = st.cells.length)
    (hrows : ∀ (i : ℕ) (row : List (Option α)), st.comp[i]? = some row → row.length = numSlots)
    (i : ℕ) (c : Cell α) (hc : (convertCells env spname st.cells)[i]? = some c)
    (hout : c.P < (env.sp spname).kPmin ∨ c.P > (env.sp spname).kPmax ∨
            c.T < (env.sp spname).kTmin ∨ c.T > (env.sp spname).kTmax) :
    (∃ row, st'.comp[i]? = some row ∧ row[pn.toNat]? = some none) ∧
    (∀ (xs : List (Option α)) (k : ℕ), nanargmin xs = some k → xs[k]? ≠ some none) := by
  refine ⟨?_, fun xs k h => nanargmin_slot_not_none h⟩
  simp only [phaseStep] at hstep
  by_cases hg : 0 ≤ pn ∧ pn.toNat < numSlots
  · rw [if_pos hg] at hstep
    cases hmw : mwFor (α := α) solute pn with
    | none => rw [hmw] at hstep; cases hstep
    | some mw =>
      rw [hmw, Option.map_some'] at hstep
      cases hstep
      have hi : i < (convertCells env spname st.cells).length :=
        (List.getElem?_eq_some.mp hc).1
      have hic : i < st.comp.length := by
        rw [hlen, ← convertCells_length env spname st.cells]
        exact hi
      have hvals : ((convertCells env spname st.cells).map
          (slotVal env solute pn spname mw))[i]? = some none := by
        rw [List.getElem?_map, hc, Option.map_some']
        have hmask : slotVal env solute pn spname mw c = none := by
          simp only [slotVal]
          rw [if_pos hout]
        rw [hmask]
      have hrow0 : st.comp[i]? = some st.comp[i] := List.getElem?_eq_getElem hic
      refine ⟨st.comp[i].set pn.toNat none, ?_, ?_⟩
      · exact writeSlot_getElem?_eq_some.mpr ⟨st.comp[i], none, hrow0, hvals, rfl⟩
      · have hl7 : st.comp[i].length = numSlots := hrows i _ hrow0
        rw [List.getElem?_set_self]
        rw [hl7]
        exact hg.2
  · rw [if_neg hg] at hstep; cases hstep

/-- Environment whose iceIh spline has narrow knot bounds, used to witness
the masking theorem on a point outside those bounds. -/
def maskEnv : Env ℚ :=
  { sp := fun n => if n = "G_iceIh" then ⟨false, 1, 0, 1, 0, 1⟩ else testSp,
    evalG := fun _ _ _ _ => 1, evalMuw := fun _ _ _ _ _ => 1,
    evalRho := fun _ _ _ _ => 2, evalKs := fun _ _ _ _ => 3,
    conv := fun _ t => t, sqrt := fun _ => 0 }

/-- Witness for whichphase_mask: the point (5, 5) lies outside the iceIh
knot box of maskEnv, and slot 1 of its row is the missing sentinel. -/
theorem whichphase_mask_witness :
    (∃ row, (([List.replicate 7 (none : Option ℚ)]) :
        List (List (Option ℚ)))[0]? = some row ∧ row[(1 : ℤ).toNat]? = some none) ∧
    (∀ (xs : List (Option ℚ)) (k : ℕ), nanargmin xs = some k → xs[k]? ≠ some none) :=
  @whichphase_mask ℚ _ maskEnv "water1" (initState [⟨5, 5, none⟩])
    ⟨[⟨5, 5, none⟩], [List.replicate 7 none]⟩ 1 "G_iceIh"
    (by
      norm_num +decide [phaseStep, mwFor, slotVal, convertCells, writeSlot, initState,
        numSlots, max_phase_num, pyMaxList, pyGt, phases, phasesLookup, phasenum2phase,
        pyIn, listInfixOf, listStartsWith, maskEnv, testSp, mH2O_kgmol,
        List.filter, List.find?, List.replicate, Int.toNat, List.set])
    rfl
    (by
      intro i row h
      match i, h with
      | 0, h => cases h; decide
      | (n + 1), h => cases h)
    0 ⟨5, 5, none⟩ rfl
    (by norm_num [maskEnv])

/-- C3 (amended): the comparable scalar written for the liquid slot (code
0) is G * MW when the solute name contains "water", and the raw muw
evaluator output (the molar mass is forwarded to the evaluator but no
explicit scaling is applied) otherwise; every other slot gets G * MW of the
registry phase carrying that code. -/
theorem slot_values {env : Env α} {solute : String} {st st' : LoopState α}
    {pn : ℤ} {spname : String}
    (hstep : phaseStep env solute st (some pn, spname) = some st')
    (hlen : st.comp.length = st.cells.length)
    (hrows : ∀ (i : ℕ) (row : List (Option α)), st.comp[i]? = some row → row.length = numSlots)
    (i : ℕ) (c : Cell α) (hc : (convertCells env spname st.cells)[i]? = some c)
    (hin : ¬(c.P < (env.sp spname).kPmin ∨ c.P > (env.sp spname).kPmax ∨
             c.T < (env.sp spname).kTmin ∨ c.T > (env.sp spname).kTmax)) :
    (pn = 0 → ∃ d, phasesLookup (α := α) solute = some d ∧
      ∃ row, st'.comp[i]? = some row ∧
        row[pn.toNat]? = some (some (if pyIn "water" solute then
            env.evalG spname d.MW c.P c.T * d.MW
          else env.evalMuw spname d.MW c.P c.T c.m))) ∧
    (pn ≠ 0 → ∃ name d, phasenum2phase (some pn) = some name ∧
      phasesLookup (α := α) name = some d ∧
      ∃ row, st'.comp[i]? = some row ∧
        row[pn.toNat]? = some (some (env.evalG spname d.MW c.P c.T * d.MW))) := by
  simp only [phaseStep] at hstep
  by_cases hg : 0 ≤ pn ∧ pn.toNat < numSlots
  · rw [if_pos hg] at hstep
    cases hmw : mwFor (α := α) solute pn with
    | none => rw [hmw] at hstep; cases hstep
    | some mw =>
      rw [hmw, Option.map_some'] at hstep
      cases hstep
      have hi : i < (convertCells env spname st.cells).length :=
        (List.getElem?_eq_some.mp hc).1
      have hic : i < st.comp.length := by
        rw [hlen, ← convertCells_length env spname st.cells]
        exact hi
      have hrow0 : st.comp[i]? = some st.comp[i] := List.getElem?_eq_getElem hic
      have hl7 : st.comp[i].length = numSlots := hrows i _ hrow0
      constructor
      · intro hpn0
        subst hpn0
        simp only [mwFor, eq_self_iff_true, if_true] at hmw
        obtain ⟨d, hd, hdmw⟩ := Option.map_eq_some'.mp hmw
        refine ⟨d, hd, ?_⟩
        have hvals : ((convertCells env spname st.cells).map
            (slotVal env solute 0 spname mw))[i]? =
              some (slotVal env solute 0 spname mw c) := by
          rw [List.getElem?_map, hc, Option.map_some']
        have hval : slotVal env solute 0 spname mw c =
            some (if pyIn "water" solute then env.evalG spname d.MW c.P c.T * d.MW
              else env.evalMuw spname d.MW c.P c.T c.m) := by
          rw [← hdmw]
          simp only [slotVal, eq_self_iff_true, if_true]
          rw [if_neg hin]
        refine ⟨st.comp[i].set (0 : ℤ).toNat (slotVal env solute 0 spname mw c),
          writeSlot_getElem?_eq_some.mpr ⟨st.comp[i], _, hrow0, hvals, rfl⟩, ?_⟩
        rw [List.getElem?_set_self (by rw [hl7]; exact hg.2), hval]
      · intro hpn
        simp only [mwFor, if_neg hpn] at hmw
        obtain ⟨d, hd, hdmw⟩ := Option.map_eq_some'.mp hmw
        obtain ⟨name, hname, hdl⟩ := Option.bind_eq_some.mp hd
        refine ⟨name, d, hname, hdl, ?_⟩
        have hvals : ((convertCells env spname st.cells).map
            (slotVal env solute pn spname mw))[i]? =
              some (slotVal env solute pn spname mw c) := by
          rw [List.getElem?_map, hc, Option.map_some']
        have hval : slotVal env solute pn spname mw c =
            some (env.evalG spname d.MW c.P c.T * d.MW) := by
          rw [← hdmw]
          simp only [slotVal, if_neg hpn]
          rw [if_neg hin]
        refine ⟨st.comp[i].set pn.toNat (slotVal env solute pn spname mw c),
          writeSlot_getElem?_eq_some.mpr ⟨st.comp[i], _, hrow0, hvals, rfl⟩, ?_⟩
        rw [List.getElem?_set_self (by rw [hl7]; exact hg.2), hval]
  · rw [if_neg hg] at hstep; cases hstep

/-- Witness for slot_values at a concrete input: the NaCl liquid slot
receives the raw muw output 5. -/
theorem slot_values_witness :
    ((0 : ℤ) = 0 → ∃ d, phasesLookup (α := ℚ) "NaCl" = some d ∧
      ∃ row, (([[some (5 : ℚ), none, none, none, none, none, none]]) :
          List (List (Option ℚ)))[0]? = some row ∧
        row[(0 : ℤ).toNat]? = some (some (if pyIn "water" "NaCl" then
            (testEnv 1 5).evalG "NaCl_LBF_8000MPa" d.MW 0 0 * d.MW
          else (testEnv 1 5).evalMuw "NaCl_LBF_8000MPa" d.MW 0 0 (some 1)))) ∧
    ((0 : ℤ) ≠ 0 → ∃ name d, phasenum2phase (some 0) = some name ∧
      phasesLookup (α := ℚ) name = some d ∧
      ∃ row, (([[some (5 : ℚ), none, none, none, none, none, none]]) :
          List (List (Option ℚ)))[0]? = some row ∧
        row[(0 : ℤ).toNat]? = some (some ((testEnv 1 5).evalG "NaCl_LBF_8000MPa" d.MW 0 0 * d.MW))) :=
  @slot_values ℚ _ (testEnv 1 5) "NaCl" (initState [⟨0, 0, some 1⟩])
    ⟨[⟨0, 0, some 1⟩], [[some 5, none, none, none, none, none, none]]⟩ 0 "NaCl_LBF_8000MPa"
    (by
      norm_num +decide [phaseStep, mwFor, slotVal, convertCells, writeSlot, initState,
        numSlots, max_phase_num, pyMaxList, pyGt, phases, phasesLookup, phasenum2phase,
        pyIn, listInfixOf, listStartsWith, testEnv, testSp, mH2O_kgmol,
        List.filter, List.find?, List.replicate, Int.toNat, List.set])
    rfl
    (by
      intro i row h
      match i, h with
      | 0, h => cases h; decide
      | (n + 1), h => cases h)
    0 ⟨0, 0, some 1⟩ rfl
    (by decide)

/-- Counterexample for C3: with an evaluator whose muw output is 5 and
solute NaCl (registry molar mass 58.44e-3), the liquid slot of the
comparison buffer holds the raw value 5 and not the molar-mass-scaled
value 5 * 58.44e-3. -/
theorem slot0_muw_unscaled :
    whichphaseComp (testEnv 1 5) "NaCl" [⟨0, 0, some 1⟩] =
      some [[some 5, some mH2O_kgmol, some mH2O_kgmol, some mH2O_kgmol, none,
             some mH2O_kgmol, some mH2O_kgmol]] ∧
    (phasesLookup (α := ℚ) "NaCl").map (fun d => d.MW) = some 58.44e-3 ∧
    (5 : ℚ) ≠ 5 * 58.44e-3 := by
  refine ⟨?_, by norm_num +decide [phasesLookup, phases, List.find?], by norm_num⟩
  norm_num +decide [whichphaseComp, whichphaseState, phase_sp, phases, phaseStep, mwFor,
    slotVal, convertCells, writeSlot, initState, numSlots, max_phase_num, pyMaxList, pyGt,
    phasesLookup, phasenum2phase, pyIn, listInfixOf, listStartsWith,
    testEnv, testSp, mH2O_kgmol, List.foldlM_cons, List.foldlM_nil,
    List.filter, List.find?, List.replicate, Int.toNat, List.set]

/-- Output bundle of the single-phase pipeline: the evaluator quantities
used downstream (rho, Ks) plus the optional shear-related fields attached
for phases with shear parameters.  Other evaluator outputs are opaque and
omitted. -/
structure SFOut (α : Type) where
  rho : List α
  Ks : List α
  shear : Option (List α)
  Vp : Option (List α)
  Vs : Option (List α)
deriving DecidableEq

/-- _get_shear_mod_GPa (seafreeze.py lines 184-185): None when the phase
has no shear parametrization, otherwise the quadratic-in-(rho - rho0) plus
linear-in-(T - T0) polynomial over the six coefficients. -/
def _get_shear_mod_GPa (sm : Option (List α)) (rho T : α) : Option α :=
  sm.map (fun s =>
    s.getD 0 0 + s.getD 1 0 * (rho - s.getD 4 0) + s.getD 2 0 * (rho - s.getD 4 0) ^ 2 +
      s.getD 3 0 * (T - s.getD 5 0))

/-- _get_Vp (seafreeze.py lines 188-189). -/
def _get_Vp (env : Env α) (smg rho Ks : α) : α :=
  1e3 * env.sqrt ((Ks / 1e3 + 4 / 3 * smg) / rho / 1e-3)

/-- _get_Vs (seafreeze.py lines 192-193). -/
def _get_Vs (env : Env α) (smg rho : α) : α :=
  1e3 * env.sqrt (smg / rho / 1e-3)

/-- Python truthiness of the shear_mod_parms field: None and the empty list
are falsy. -/
def pyTruthyList (sm : Option (List α)) : Bool :=
  match sm with
  | none => false
  | some l => !l.isEmpty

/-- seafreeze (lines 64-85): resolve the phase descriptor (`none` models
the ValueError raised for an unrecognized phase), convert the temperature
buffer in place when the spline uses dimensionless temperature, evaluate
the thermodynamic quantities, and attach shear, Vp and Vs (smg scaled by
1e3 for shear) when the descriptor carries shear parameters. -/
def seafreeze (env : Env α) (pts : List (Cell α)) (phase : String) : Option (SFOut α) :=
  (phasesLookup (α := α) phase).map (fun d =>
    let pts2 := convertCells env d.sp_name pts
    let rho := pts2.map (fun c => env.evalRho d.sp_name d.MW c.P c.T)
    let Ks := pts2.map (fun c => env.evalKs d.sp_name d.MW c.P c.T)
    if pyTruthyList d.shear_mod_parms then
      let smg := (pts2.zip rho).map (fun ct =>
        (_get_shear_mod_GPa d.shear_mod_parms ct.2 ct.1.T).getD 0)
      { rho := rho, Ks := Ks,
        shear := some (smg.map (fun g => 1e3 * g)),
        Vp := some ((smg.zip (rho.zip Ks)).map (fun x => _get_Vp env x.1 x.2.1 x.2.2)),
        Vs := some ((smg.zip rho).map (fun x => _get_Vs env x.1 x.2)) }
    else
      { rho := rho, Ks := Ks, shear := none, Vp := none, Vs := none })

/-- C8: for a phase whose descriptor carries the six shear parameters,
seafreeze attaches shear = 1000 * (c0 + c1*(rho - r0) + c2*(rho - r0)^2 +
c3*(T - T0)) (the GPa polynomial scaled to MPa), Vp = 1000 *
sqrt((Ks/1000 + 4/3*smg)/rho/0.001) and Vs = 1000 * sqrt(smg/rho/0.001)
with smg the unscaled GPa shear value; for a phase without shear parameters
none of shear, Vp, Vs is attached. -/
theorem seafreeze_shear {env : Env α} {pts : List (Cell α)} {phase : String}
    {d : PhaseDesc α} (hd : phasesLookup (α := α) phase = some d) :
    (∀ c0 c1 c2 c3 r0 T0 : α, d.shear_mod_parms = some [c0, c1, c2, c3, r0, T0] →
      seafreeze env pts phase = some
        (let pts2 := convertCells env d.sp_name pts
         let rho := pts2.map (fun c => env.evalRho d.sp_name d.MW c.P c.T)
         let Ks := pts2.map (fun c => env.evalKs d.sp_name d.MW c.P c.T)
         let smg := (pts2.zip rho).map (fun ct =>
           c0 + c1 * (ct.2 - r0) + c2 * (ct.2 - r0) ^ 2 + c3 * (ct.1.T - T0))
         { rho := rho, Ks := Ks,
           shear := some (smg.map (fun g => 1000 * g)),
           Vp := some ((smg.zip (rho.zip Ks)).map (fun x =>
             1000 * env.sqrt ((x.2.2 / 1000 + 4 / 3 * x.1) / x.2.1 / 0.001))),
           Vs := some ((smg.zip rho).map (fun x =>
             1000 * env.sqrt (x.1 / x.2 / 0.001))) })) ∧
    (d.shear_mod_parms = none →
      seafreeze env pts phase = some
        { rho := (convertCells env d.sp_name pts).map
            (fun c => env.evalRho d.sp_name d.MW c.P c.T),
          Ks := (convertCells env d.sp_name pts).map
            (fun c => env.evalKs d.sp_name d.MW c.P c.T),
          shear := none, Vp := none, Vs := none }) := by
  constructor
  · intro c0 c1 c2 c3 r0 T0 hsm
    have hpoly : ∀ rr tt : α,
        (_get_shear_mod_GPa (some [c0, c1, c2, c3, r0, T0]) rr tt).getD 0 =
          c0 + c1 * (rr - r0) + c2 * (rr - r0) ^ 2 + c3 * (tt - T0) := by
      intro rr tt
      simp [_get_shear_mod_GPa, List.getD]
    simp only [seafreeze, hd, Option.map_some', hsm]
    rw [if_pos (by simp [pyTruthyList])]
    simp only [SFOut.mk.injEq, Option.some_inj, hpoly]
    refine ⟨by trivial, by trivial, ?_, ?_, ?_⟩
    · simp only [List.map_map]
      rw [List.map_inj_left]
      intro a _
      norm_num
    · rw [List.map_inj_left]
      intro a _
      simp only [_get_Vp]
      norm_num
    · rw [List.map_inj_left]
      intro a _
      simp only [_get_Vs]
      norm_num
  · intro hsm
    simp only [seafreeze, hd, Option.map_some', hsm]
    rw [if_neg (by simp [pyTruthyList])]

/-- Witness for seafreeze_shear: concrete evaluation for ice Ih at one
point, with the evaluator returning rho = 2 and Ks = 3. -/
theorem seafreeze_shear_witness :
    seafreeze (testEnv 1 1) [⟨1, 2, none⟩] "Ih" = some
      (let pts2 := convertCells (testEnv 1 1) "G_iceIh" [⟨1, 2, none⟩]
       let rho := pts2.map (fun c => (testEnv 1 1).evalRho "G_iceIh" mH2O_kgmol c.P c.T)
       let Ks := pts2.map (fun c => (testEnv 1 1).evalKs "G_iceIh" mH2O_kgmol c.P c.T)
       let smg := (pts2.zip rho).map (fun ct =>
         3.04 + -0.00462 * (ct.2 - 1000) + 0 * (ct.2 - 1000) ^ 2 + -0.00607 * (ct.1.T - 273.15))
       { rho := rho, Ks := Ks,
         shear := some (smg.map (fun g => 1000 * g)),
         Vp := some ((smg.zip (rho.zip Ks)).map (fun x =>
           1000 * (testEnv 1 1).sqrt ((x.2.2 / 1000 + 4 / 3 * x.1) / x.2.1 / 0.001))),
         Vs := some ((smg.zip rho).map (fun x =>
           1000 * (testEnv 1 1).sqrt (x.1 / x.2 / 0.001))) }) :=
  (@seafreeze_shear ℚ _ (testEnv 1 1) [⟨1, 2, none⟩] "Ih"
    ⟨"G_iceIh", some [3.04, -0.00462, 0, -0.00607, 1000, 273.15], some 1, mH2O_kgmol⟩ rfl).1
    3.04 (-0.00462) 0 (-0.00607) 1000 273.15 rfl

/-- C6 (amended): seafreeze fails fast with the unknown-phase error exactly
when the requested phase name is absent from the registry; whichphase with
a solute name absent from the registry does NOT fail fast: only the five
ice phases are loaded (the liquid slot is never populated) and an output is
still produced. -/
theorem unknown_phase_behavior (env : Env α) (pts cells : List (Cell α)) (p solute : String)
    (hsol : phasesLookup (α := ℚ) solute = none) :
    ((seafreeze env pts p).isNone ↔ (phasesLookup (α := α) p).isNone) ∧
    loadedPhases solute = ["Ih", "II", "III", "V", "VI"] ∧
    (whichphase env solute cells).isSome := by
  have hne : ∀ kv ∈ phases (α := ℚ), ¬(kv.1 = solute) := by
    intro kv hkv
    have hfind := Option.map_eq_none'.mp hsol
    have := List.find?_eq_none.mp hfind kv hkv
    simpa using this
  have h1 : ¬("water1" = solute) :=
    hne ("water1", ⟨"G_H2O_2GPa_500K", none, some 0, mH2O_kgmol⟩) (by simp [phases])
  have h2 : ¬("water2" = solute) :=
    hne ("water2", ⟨"G_H2O_100GPa_10000K", none, none, mH2O_kgmol⟩) (by simp [phases])
  have h3 : ¬("water_IAPWS95" = solute) :=
    hne ("water_IAPWS95", ⟨"G_H2O_IAPWS", none, none, mH2O_kgmol⟩) (by simp [phases])
  have h4 : ¬("NH3" = solute) :=
    hne ("NH3", ⟨"LBF_NH3_H2O_SSdev_v1", none, some 0, 17.031e-3⟩) (by simp [phases])
  have h5 : ¬("NaCl" = solute) :=
    hne ("NaCl", ⟨"NaCl_LBF_8000MPa", none, some 0, 58.44e-3⟩) (by simp [phases])
  refine ⟨?_, ?_, ?_⟩
  · cases h : phasesLookup (α := α) p <;> simp [seafreeze, h]
  · simp [loadedPhases, phases, pyGt, h1, h2, h3, h4, h5]
  · have hps : phase_sp solute =
        [(some 1, "G_iceIh"), (some 2, "G_iceII"), (some 3, "G_iceIII"),
         (some 5, "G_iceV"), (some 6, "G_iceVI")] := by
      simp [phase_sp, phases, pyGt, h1, h2, h3, h4, h5]
    simp only [whichphase, whichphaseState, hps]
    norm_num +decide [phaseStep, mwFor, phasenum2phase, phasesLookup, phases, numSlots,
      max_phase_num, pyMaxList, pyGt, List.foldlM_cons, List.foldlM_nil,
      List.filter, List.find?]

/-- Witness for unknown_phase_behavior at concrete inputs. -/
theorem unknown_phase_behavior_witness :
    ((seafreeze (testEnv 1 1) [⟨0, 0, none⟩] "Ih").isNone ↔
      (phasesLookup (α := ℚ) "Ih").isNone) ∧
    loadedPhases "bogus" = ["Ih", "II", "III", "V", "VI"] ∧
    (whichphase (testEnv 1 1) "bogus" [⟨0, 0, none⟩]).isSome :=
  unknown_phase_behavior (testEnv 1 1) [⟨0, 0, none⟩] [⟨0, 0, none⟩] "Ih" "bogus" rfl

/-- Counterexample for C6: whichphase with the unknown solute name bogus
does not raise the unknown-phase error and produces a full output (phase
code 1 at the sample point, since only the ice phases enter the
comparison). -/
theorem whichphase_unknown_solute_no_error :
    phasesLookup (α := ℚ) "bogus" = none ∧
    whichphase (testEnv 1 1) "bogus" [⟨0, 0, none⟩] = some [some 1] := by
  refine ⟨rfl, ?_⟩
  norm_num +decide [whichphase, whichphaseState, phase_sp, phases, phaseStep, mwFor, slotVal,
    convertCells, writeSlot, initState, numSlots, max_phase_num, pyMaxList, pyGt,
    phasesLookup, phasenum2phase, pyIn, listInfixOf, listStartsWith, nanargmin,
    testEnv, testSp, mH2O_kgmol, List.foldlM_cons, List.foldlM_nil, min_def,
    List.min?_cons, List.findIdx_cons, List.filter, List.find?, List.replicate,
    Int.toNat, List.set, List.filterMap, List.min?, List.foldl, le_refl]

/-- Modelled from the claim wording for C4 (refinement comparison only):
the registry phases with a valid (non-nan) phase code, together with the
phase named like the solute when that phase is comparison-only (nan code). -/
def claimedLoadedPhases (solute : String) : List String :=
  ((phases (α := ℚ)).filter (fun kv => kv.2.phase_num.isSome ||
      (kv.2.phase_num.isNone && kv.1 = solute))).map (fun kv => kv.1)

/-- Counterexample for C4: with the default solute water1, the claim
predicts that NH3 and NaCl (valid phase code 0) are among the loaded
candidates, but whichphase loads only the phases with strictly positive
code plus water1 itself. -/
theorem loadedPhases_counterexample :
    loadedPhases "water1" = ["Ih", "II", "III", "V", "VI", "water1"] ∧
    claimedLoadedPhases "water1" =
      ["Ih", "II", "III", "V", "VI", "water1", "NH3", "NaCl"] ∧
    loadedPhases "water1" ≠ claimedLoadedPhases "water1" := by
  refine ⟨?_, ?_, ?_⟩ <;>
    simp [loadedPhases, claimedLoadedPhases, phases, pyGt]

/-- C4 (amended): for every solute, the loaded candidate set is exactly the
registry phases with strictly positive phase code together with the
registry phase named like the solute, whatever its code. -/
theorem loadedPhases_spec (solute name : String) :
    name ∈ loadedPhases solute ↔
      ∃ d, phasesLookup (α := ℚ) name = some d ∧
        (pyGt d.phase_num (some 0) = true ∨ name = solute) := by
  constructor
  · intro h
    simp only [loadedPhases, List.mem_map, List.mem_filter] at h
    obtain ⟨kv, ⟨hmem, hp⟩, rfl⟩ := h
    refine ⟨kv.2, ?_, ?_⟩
    · simp only [phases, List.mem_cons, List.not_mem_nil, or_false] at hmem
      rcases hmem with rfl|rfl|rfl|rfl|rfl|rfl|rfl|rfl|rfl|rfl <;> rfl
    · simpa using hp
  · rintro ⟨d, hd, hcond⟩
    obtain ⟨kv, hfind, hkv2⟩ := Option.map_eq_some'.mp hd
    have hmem := List.mem_of_find?_eq_some hfind
    have hname : kv.1 = name := by simpa using List.find?_some hfind
    subst hname
    simp only [loadedPhases, List.mem_map]
    refine ⟨kv, List.mem_filter.mpr ⟨hmem, ?_⟩, rfl⟩
    simp only [Bool.or_eq_true, decide_eq_true_eq]
    rcases hcond with h | h
    · left
      rw [hkv2]
      exact h
    · right
      exact h

/-- Modelled from the claim wording for C7 (refinement comparison only):
codes 0 for water1, 1..6 for the ice polymorphs, and the nan sentinel for
the comparison-only water parametrizations and for the solutes. -/
def claimedPhaseNum : String → Option (Option ℤ)
  | "Ih" => some (some 1)
  | "II" => some (some 2)
  | "III" => some (some 3)
  | "V" => some (some 5)
  | "VI" => some (some 6)
  | "water1" => some (some 0)
  | "water2" => some none
  | "water_IAPWS95" => some none
  | "NH3" => some none
  | "NaCl" => some none
  | _ => none

/-- Counterexample for C7: the registry assigns phase code 0 to the solute
NH3 (and likewise NaCl), not the nan sentinel the claim asserts. -/
theorem phase_codes_counterexample :
    (phasesLookup (α := ℚ) "NH3").map (fun d => d.phase_num) = some (some 0) ∧
    claimedPhaseNum "NH3" = some none ∧
    (phasesLookup (α := ℚ) "NH3").map (fun d => d.phase_num) ≠ claimedPhaseNum "NH3" := by
  refine ⟨rfl, rfl, ?_⟩
  simp [phasesLookup, phases, claimedPhaseNum, List.find?]

/-- C7 (amended): the registry phase codes are 0 for water1 and for the
solutes NH3 and NaCl (they share the liquid slot), 1, 2, 3, 5, 6 for the
ice polymorphs (code 4 is unused), and the nan sentinel exactly for the
comparison-only water parametrizations water2 and water_IAPWS95. -/
theorem phase_codes :
    (phasesLookup (α := ℚ) "Ih").map (fun d => d.phase_num) = some (some 1) ∧
    (phasesLookup (α := ℚ) "II").map (fun d => d.phase_num) = some (some 2) ∧
    (phasesLookup (α := ℚ) "III").map (fun d => d.phase_num) = some (some 3) ∧
    (phasesLookup (α := ℚ) "V").map (fun d => d.phase_num) = some (some 5) ∧
    (phasesLookup (α := ℚ) "VI").map (fun d => d.phase_num) = some (some 6) ∧
    (phasesLookup (α := ℚ) "water1").map (fun d => d.phase_num) = some (some 0) ∧
    (phasesLookup (α := ℚ) "water2").map (fun d => d.phase_num) = some none ∧
    (phasesLookup (α := ℚ) "water_IAPWS95").map (fun d => d.phase_num) = some none ∧
    (phasesLookup (α := ℚ) "NH3").map (fun d => d.phase_num) = some (some 0) ∧
    (phasesLookup (α := ℚ) "NaCl").map (fun d => d.phase_num) = some (some 0) ∧
    (∀ kv ∈ phases (α := ℚ), kv.2.phase_num ≠ some 4) := by
  refine ⟨rfl, rfl, rfl, rfl, rfl, rfl, rfl, rfl, rfl, rfl, ?_⟩
  intro kv hmem
  simp only [phases, List.mem_cons, List.not_mem_nil, or_false] at hmem
  rcases hmem with rfl|rfl|rfl|rfl|rfl|rfl|rfl|rfl|rfl|rfl <;> simp

/-- The cells of the loop state after a successful step are exactly the
converted buffer of that step: the in-place mutation persists into the
following iterations. -/
theorem phaseStep_cells {env : Env α} {solute : String} {st st' : LoopState α}
    {cand : Option ℤ × String} (h : phaseStep env solute st cand = some st') :
    st'.cells = convertCells env cand.2 st.cells := by
  obtain ⟨pnum, spname⟩ := cand
  cases pnum with
  | none => simp [phaseStep] at h
  | some pn =>
    simp only [phaseStep] at h
    by_cases hg : 0 ≤ pn ∧ pn.toNat < numSlots
    · rw [if_pos hg] at h
      cases hmw : mwFor (α := α) solute pn with
      | none => rw [hmw] at h; cases h
      | some mw =>
        rw [hmw, Option.map_some'] at h
        cases h
        rfl
    · rw [if_neg hg] at h; cases h

/-- The coordinate buffer state observed by each candidate phase of the
whichphase loop, in candidate order: each entry is the shared buffer after
the in-place conversion performed for that candidate (seafreeze.py lines
134-140); the mutation persists into the following iterations
(phaseStep_cells). -/
def cellsSeen (env : Env α) (cands : List (Option ℤ × String)) (cells : List (Cell α)) :
    List (List (Cell α)) :=
  match cands with
  | [] => []
  | cand :: rest =>
    let cur := convertCells env cand.2 cells
    cur :: cellsSeen env rest cur

/-- C5 (amended): each candidate observes the buffer as left by all
preceding candidates.  When no candidate strictly before position k uses
dimensionless temperature, the candidate at position k observes exactly the
original input buffer converted once for itself: the original temperatures
if it does not use dimensionless temperature, ln(T/Tc) with its own Tc
otherwise.  When an ndT candidate precedes another candidate the claim as
stated fails, because the in-place conversion is never undone (see the
counterexample). -/
theorem cellsSeen_no_prior_ndT {env : Env α} {cands : List (Option ℤ × String)}
    {cells : List (Cell α)} (k : ℕ) (cand : Option ℤ × String)
    (hk : cands[k]? = some cand)
    (hprior : ∀ (j : ℕ) (cj : Option ℤ × String), j < k → cands[j]? = some cj →
      (env.sp cj.2).ndT = false) :
    (cellsSeen env cands cells)[k]? = some (convertCells env cand.2 cells) := by
  induction cands generalizing k cells with
  | nil => cases hk
  | cons c0 rest ih =>
    cases k with
    | zero =>
      rw [List.getElem?_cons_zero] at hk
      cases hk
      simp [cellsSeen]
    | succ k =>
      have h0 : (env.sp c0.2).ndT = false := hprior 0 c0 (Nat.succ_pos k) (by simp)
      have hcur : convertCells env c0.2 cells = cells := by
        simp [convertCells, h0]
      rw [List.getElem?_cons_succ] at hk
      show (convertCells env c0.2 cells :: cellsSeen env rest (convertCells env c0.2 cells))[k + 1]? =
        some (convertCells env cand.2 cells)
      rw [List.getElem?_cons_succ, hcur]
      exact ih k hk (fun j cj hj hcj =>
        hprior (j + 1) cj (Nat.succ_lt_succ hj) (by rw [List.getElem?_cons_succ]; exact hcj))

/-- Witness for cellsSeen_no_prior_ndT: in an environment without
dimensionless-temperature phases, candidate iceII observes the original
buffer. -/
theorem cellsSeen_no_prior_ndT_witness :
    (cellsSeen (testEnv 1 1) (phase_sp "water1") [⟨0, 1, none⟩])[1]? =
      some (convertCells (testEnv 1 1) "G_iceII" [⟨0, 1, none⟩]) :=
  cellsSeen_no_prior_ndT 1 (some 2, "G_iceII") rfl
    (by
      intro j cj hj hcj
      interval_cases j
      have : cj = (some 1, "G_iceIh") := by
        simpa [phase_sp, phases, pyGt] using hcj.symm
      rw [this]
      rfl)

/-- Counterexample for C5: with the iceIh spline flagged for dimensionless
temperature (Tc = 1) and the actual logarithmic conversion of the code, the
following candidate iceII, which does not use dimensionless temperature,
observes the converted temperature ln(1/1) = 0 instead of the original
temperature 1: the in-place conversion on the shared buffer is not undone
for later phases. -/
theorem cellsSeen_counterexample :
    (cellsSeen (α := ℝ)
        { sp := fun n => if n = "G_iceIh" then ⟨true, 1, 0, 1, 0, 1⟩ else ⟨false, 1, 0, 1, 0, 1⟩,
          evalG := fun _ _ _ _ => 0, evalMuw := fun _ _ _ _ _ => 0,
          evalRho := fun _ _ _ _ => 0, evalKs := fun _ _ _ _ => 0,
          conv := fun c t => Real.log (t / c), sqrt := Real.sqrt }
        (phase_sp "water1") [⟨0, 1, none⟩])[1]? = some [⟨0, 0, none⟩] ∧
    ((0 : ℝ) ≠ 1) := by
  constructor
  · have hps : phase_sp "water1" =
        [(some 1, "G_iceIh"), (some 2, "G_iceII"), (some 3, "G_iceIII"),
         (some 5, "G_iceV"), (some 6, "G_iceVI"), (some 0, "G_H2O_2GPa_500K")] := by
      simp [phase_sp, phases, pyGt]
    rw [hps]
    norm_num [cellsSeen, convertCells, Real.log_one]
  · norm_num

/-- Shape descriptor of a PTm input: scatter point count, or grid axis
lengths with the optional molality axis length. -/
inductive PTmShape
  | scatter (n : ℕ)
  | grid2 (nP nT : ℕ)
  | grid3 (nP nT nm : ℕ)
deriving DecidableEq

/-- The reference shape ptsh of seafreeze.py line 132: `(PTm.size,)` for a
scatter input and `(PTm[iP].size, PTm[iT].size)` for a grid input; a third
grid axis (molality) never enters the output shape. -/
def whichphaseShape : PTmShape → List ℕ
  | .scatter n => [n]
  | .grid2 nP nT => [nP, nT]
  | .grid3 nP nT _ => [nP, nT]

/-- Modelled from the claim wording for C9 (refinement comparison only):
output shaped like the input, including the molality axis when a third
axis is supplied. -/
def claimedShape : PTmShape → List ℕ
  | .scatter n => [n]
  | .grid2 nP nT => [nP, nT]
  | .grid3 nP nT nm => [nP, nT, nm]

/-- Counterexample for C9: for a grid with 2 pressures, 3 temperatures and
4 molalities, the output shape is (2, 3), not the claimed (2, 3, 4). -/
theorem whichphaseShape_counterexample :
    whichphaseShape (.grid3 2 3 4) = [2, 3] ∧
    claimedShape (.grid3 2 3 4) = [2, 3, 4] ∧
    whichphaseShape (.grid3 2 3 4) ≠ claimedShape (.grid3 2 3 4) := by
  refine ⟨rfl, rfl, by decide⟩

/-- C9 (amended): the whichphase output carries one entry per scatter point
and one entry per (P, T) grid cell; the molality axis never contributes to
the output shape, and every produced entry is an optional phase code. -/
theorem whichphase_output_shape (env : Env α) (solute : String) :
    (∀ n, whichphaseShape (.scatter n) = [n]) ∧
    (∀ nP nT nm, whichphaseShape (.grid3 nP nT nm) = whichphaseShape (.grid2 nP nT)) ∧
    (∀ (cells : List (Cell α)) (out : List (Option ℕ)),
      whichphase env solute cells = some out → out.length = cells.length) ∧
    (∀ Ps Ts : List α, (gridCells Ps Ts).length = Ps.length * Ts.length) := by
  refine ⟨fun n => rfl, fun nP nT nm => rfl, ?_, ?_⟩
  · intro cells out hout
    obtain ⟨st, hst, rfl⟩ := Option.map_eq_some'.mp hout
    obtain ⟨-, hcomp, -⟩ := whichphaseState_stInv hst
    simp [hcomp]
  · intro Ps Ts
    induction Ps with
    | nil => simp [gridCells]
    | cons p ps ih =>
      simp only [gridCells, List.map_cons, List.flatten_cons, List.length_append,
        List.length_map, List.length_cons]
      simp only [gridCells] at ih
      rw [ih]
      ring

/-- Witness for whichphase_output_shape at a concrete input. -/
theorem whichphase_output_shape_witness :
    ([some 0] : List (Option ℕ)).length = ([⟨0, 0, none⟩] : List (Cell ℚ)).length :=
  (whichphase_output_shape (testEnv 1 1) "water1").2.2.1 [⟨0, 0, none⟩] [some 0]
    (by
      norm_num +decide [whichphase, whichphaseState, phase_sp, phases, phaseStep, mwFor, slotVal,
        convertCells, writeSlot, initState, numSlots, max_phase_num, pyMaxList, pyGt,
        phasesLookup, phasenum2phase, pyIn, listInfixOf, listStartsWith, nanargmin,
        testEnv, testSp, mH2O_kgmol, List.foldlM_cons, List.foldlM_nil, min_def,
        List.min?_cons, List.findIdx_cons, List.filter, List.find?, List.replicate,
        Int.toNat, List.set, List.filterMap, List.min?, List.foldl, le_refl])

end SeaFreeze
